import Mathlib

/-!
Verification development for the BPOD (Balanced Proper Orthogonal
Decomposition) engine of `bpod.py`.

The engine is embedded shallowly:

* numpy 1-D / 2-D arrays become the inductive `NDArr` (a list of scalars or a
  list of rows), so shape-sensitive operations (`numpy.squeeze`, `numpy.diag`,
  `numpy.mat`) can be modelled faithfully;
* the engine object becomes the record `BPODState`, holding the same six
  optional fields as the Python instance;
* the external collaborators (the inner-product matrix builder of the
  `ModalDecomp` base layer, `util.svd`, `load_mat`/`save_mat`, the
  `_compute_modes` linear-combination builder) are either modelled from the
  specification or passed in as function parameters, and calls to them are
  recorded as explicit events so that evaluation order is observable;
* the MPI facade becomes an explicit worker-indexed execution: per-worker
  local phases followed by a broadcast that copies fields from the rank-zero
  worker's locally computed state, mirroring the
  `if isRankZero: compute else: None; bcast` pattern of the source;
* Python exceptions (`util.UndefinedError`) become the `Except` error channel.

Scalars are kept abstract (a semiring `α`, with the elementwise `** -0.5`
passed as a function `rsqrt`), since no claim depends on floating-point
behaviour.
-/

set_option autoImplicit false

/-- A numpy value that is either a 1-D array (`vec`) or a 2-D array (`mat`). -/
inductive NDArr (α : Type) where
  | vec (xs : List α)
  | mat (xss : List (List α))
deriving DecidableEq

/-- numpy `squeeze`: remove singleton axes.  A `1 × n` or `m × 1` 2-D array
becomes 1-D; other 2-D arrays are unchanged; 1-D arrays are unchanged. -/
def NDArr.squeeze {α : Type} : NDArr α → NDArr α
  | .vec xs => .vec xs
  | .mat xss =>
    if xss.length = 1 then .vec (xss.headD [])
    else if xss.all (fun row => row.length = 1) then .vec (xss.filterMap List.head?)
    else .mat xss

/-- Whether an `NDArr` is a flat (1-D) array. -/
def NDArr.isVec {α : Type} : NDArr α → Bool
  | .vec _ => true
  | .mat _ => false

/-- Whether an `NDArr` would be flattened by `squeeze`: it is already 1-D, or
it is a single-row or single-column 2-D array. -/
def NDArr.vecLike {α : Type} : NDArr α → Bool
  | .vec _ => true
  | .mat xss => xss.length = 1 || xss.all (fun row => row.length = 1)

/-- numpy `mat` coercion to a 2-D array: a 1-D array becomes a single row. -/
def NDArr.toMat {α : Type} : NDArr α → List (List α)
  | .vec xs => [xs]
  | .mat xss => xss

/-- Elementwise map over an `NDArr` (models elementwise `** -0.5`). -/
def NDArr.ndMap {α β : Type} (f : α → β) : NDArr α → NDArr β
  | .vec xs => .vec (xs.map f)
  | .mat xss => .mat (xss.map (List.map f))

/-- numpy `diag`: a 1-D argument yields the square diagonal matrix carrying
it; a 2-D argument yields the 1-D array of its diagonal entries. -/
def npDiag {α : Type} [Zero α] : NDArr α → NDArr α
  | .vec d =>
    .mat ((List.range d.length).map fun i =>
      (List.range d.length).map fun j => if i = j then d.getD i 0 else 0)
  | .mat xss =>
    .vec ((List.range (min xss.length (xss.headD []).length)).map fun i =>
      (xss.getD i []).getD i 0)

/-- numpy matrix product on 2-D arrays represented as lists of rows:
entry `(i, j)` is the contraction of row `i` of `A` with column `j` of `B`,
summed over the rows of `B`. -/
def matMul {α : Type} [NonUnitalNonAssocSemiring α] (A B : List (List α)) :
    List (List α) :=
  A.map fun row =>
    (List.range (B.headD []).length).map fun j =>
      Finset.sum (Finset.range B.length) fun k =>
        row.getD k 0 * (B.getD k []).getD j 0

/-- The error channel of the engine.  `undefinedError` is the typed Python
exception `util.UndefinedError`.  `nameError` is a Python `NameError`: bpod.py
imports only `modaldecomp`, `util` and `numpy`, so a `raise` statement that
references the bare, out-of-scope identifier `UndefinedError` fails while
evaluating that name, before any exception object is constructed; the carried
string is the undefined identifier. -/
inductive BPODError where
  | undefinedError (msg : String)
  | nameError (name : String)
deriving DecidableEq

/-- The mutable fields of a `BPOD` instance (`bpod.py`, constructor). -/
structure BPODState (α : Type) where
  directSnapPaths : Option (List String)
  adjointSnapPaths : Option (List String)
  LSingVecs : Option (NDArr α)
  singVals : Option (NDArr α)
  RSingVecs : Option (NDArr α)
  hankelMat : Option (NDArr α)
deriving DecidableEq

/-- A freshly constructed engine: every field unset. -/
def emptyState (α : Type) : BPODState α :=
  ⟨none, none, none, none, none, none⟩

/-- The Python `if arg is not None: self.field = arg` pattern: a `some`
argument overrides the current field, a `none` argument keeps it. -/
def mergeArg {β : Type} (arg cur : Option β) : Option β :=
  match arg with
  | some v => some v
  | none => cur

/-- Observable calls a worker makes to external collaborators, in order. -/
inductive Event (α : Type) where
  | ipmCall (rowPaths colPaths : List String)
  | svdCall (m : NDArr α)
  | matWrite (v : Option (NDArr α)) (path : String)
deriving DecidableEq

/-- Modelled from the spec: `compute_inner_product_matrix(row_paths,
col_paths)` is a primitive of the `ModalDecomp` base layer, whose source is
not part of this repository.  Per the spec it returns the matrix of pairwise
inner products with the first path list indexing the rows and the second
indexing the columns. -/
def compute_inner_product_matrix {α : Type} (inner_product : String → String → α)
    (rowPaths colPaths : List String) : NDArr α :=
  .mat (rowPaths.map fun rp => colPaths.map fun cp => inner_product rp cp)

/-- One conditional matrix write of `save_decomp`: emitted only when the
corresponding output path is provided. -/
def optWrite {α : Type} (v : Option (NDArr α)) (path : Option String) :
    List (Event α) :=
  match path with
  | some p => [.matWrite v p]
  | none => []

/-- `BPOD.save_decomp` (bpod.py lines 74-88), run on one worker.  If no
`save_mat` is configured the rank-zero worker raises; otherwise the rank-zero
worker writes each artifact whose path is provided (in source order: Hankel
matrix, L, R, singular values) and every other worker writes nothing. -/
def save_decomp {α : Type} (isRankZero saveMatDefined : Bool) (st : BPODState α)
    (hankelMatPath LSingVecsPath singValsPath RSingVecsPath : Option String) :
    Except BPODError (List (Event α)) :=
  if !saveMatDefined && isRankZero then
    .error (.undefinedError "save_mat is undefined, cant save")
  else if isRankZero then
    .ok (optWrite st.hankelMat hankelMatPath ++ optWrite st.LSingVecs LSingVecsPath ++
      optWrite st.RSingVecs RSingVecsPath ++ optWrite st.singVals singValsPath)
  else
    .ok []

/-- The pre-broadcast phase of `BPOD.load_decomp` (bpod.py lines 61-68) on one
worker: rank zero loads L, the squeezed singular values, and R from their
paths; every other worker sets those three fields to `None`.  The Hankel
matrix field is not touched on any worker. -/
def load_decomp_local {α : Type} (isRankZero : Bool) (load_mat : String → NDArr α)
    (st : BPODState α) (LSingVecsPath singValsPath RSingVecsPath : String) :
    BPODState α :=
  if isRankZero then
    { st with LSingVecs := some (load_mat LSingVecsPath),
              singVals := some (load_mat singValsPath).squeeze,
              RSingVecs := some (load_mat RSingVecsPath) }
  else
    { st with LSingVecs := none, singVals := none, RSingVecs := none }

/-- `BPOD.load_decomp` (bpod.py lines 52-72) over a cluster of `size` workers,
worker `r` starting from state `sts r`.  After the local phase, in parallel
runs every field is replaced by the broadcast of the rank-zero worker's local
value; the third broadcast reproduces line 72 of the source verbatim, which
broadcasts `self.LSingVecs` into `self.RSingVecs`.  The `hankelMatPath`
argument is accepted and ignored, as in the source.  With no `load_mat`
available, line 60 raises the bare name `UndefinedError`, which is not in
scope in bpod.py, so the call actually fails with a `NameError` (the intended
message string is never attached). -/
def load_decomp {α : Type} (size : Nat) (load_mat : Option (String → NDArr α))
    (sts : Nat → BPODState α)
    (hankelMatPath LSingVecsPath singValsPath RSingVecsPath : String) :
    Except BPODError (Nat → BPODState α) :=
  match load_mat with
  | none => .error (.nameError "UndefinedError")
  | some lm =>
    .ok fun r =>
      let loc := load_decomp_local (r == 0) lm (sts r)
        LSingVecsPath singValsPath RSingVecsPath
      if 1 < size then
        let rootLoc := load_decomp_local true lm (sts 0)
          LSingVecsPath singValsPath RSingVecsPath
        { loc with LSingVecs := rootLoc.LSingVecs,
                   singVals := rootLoc.singVals,
                   RSingVecs := rootLoc.LSingVecs }
      else loc

/-- The per-worker phase of `BPOD.compute_decomp` (bpod.py lines 103-122):
merge the path arguments, validate that both path lists are set (raising
before any collective work otherwise), build the Hankel matrix through the
inner-product matrix builder with adjoint paths as rows and direct paths as
columns, and on rank zero run the SVD while every other worker sets the three
factors to `None`.  The first component records the external calls made. -/
def compute_decomp_local {α : Type} (isRankZero : Bool)
    (inner_product : String → String → α)
    (svdFun : NDArr α → NDArr α × NDArr α × NDArr α) (st : BPODState α)
    (directSnapPaths adjointSnapPaths : Option (List String)) :
    List (Event α) × Except BPODError (BPODState α) :=
  let st1 := { st with directSnapPaths := mergeArg directSnapPaths st.directSnapPaths,
                       adjointSnapPaths := mergeArg adjointSnapPaths st.adjointSnapPaths }
  match st1.directSnapPaths, st1.adjointSnapPaths with
  | none, _ => ([], .error (.undefinedError "directSnapPaths is not given"))
  | some _, none => ([], .error (.undefinedError "adjointSnapPaths is not given"))
  | some dps, some aps =>
    let H := compute_inner_product_matrix inner_product aps dps
    let st2 := { st1 with hankelMat := some H }
    if isRankZero then
      let LsR := svdFun H
      ([.ipmCall aps dps, .svdCall H],
        .ok { st2 with LSingVecs := some LsR.1, singVals := some LsR.2.1,
                       RSingVecs := some LsR.2.2 })
    else
      ([.ipmCall aps dps],
        .ok { st2 with LSingVecs := none, singVals := none, RSingVecs := none })

/-- `BPOD.compute_decomp` (bpod.py lines 90-129) over a cluster of `size`
workers, as observed by worker `r`: the local phase, then in parallel runs the
broadcast of the rank-zero worker's three SVD factors (lines 124-126, which
broadcast `LSingVecs`, `singVals`, `RSingVecs` correctly), then the trailing
`save_decomp` call with the caller-supplied artifact paths. -/
def compute_decomp {α : Type} (size : Nat) (inner_product : String → String → α)
    (svdFun : NDArr α → NDArr α × NDArr α × NDArr α) (saveMatDefined : Bool)
    (sts : Nat → BPODState α) (directSnapPaths adjointSnapPaths : Option (List String))
    (hankelMatPath LSingVecsPath singValsPath RSingVecsPath : Option String)
    (r : Nat) : List (Event α) × Except BPODError (BPODState α) :=
  match compute_decomp_local (r == 0) inner_product svdFun (sts r)
      directSnapPaths adjointSnapPaths with
  | (tr, .error e) => (tr, .error e)
  | (tr, .ok st2) =>
    let stb :=
      if 1 < size then
        match compute_decomp_local true inner_product svdFun (sts 0)
            directSnapPaths adjointSnapPaths with
        | (_, .ok rootSt) =>
          { st2 with LSingVecs := rootSt.LSingVecs, singVals := rootSt.singVals,
                     RSingVecs := rootSt.RSingVecs }
        | (_, .error _) => st2
      else st2
    match save_decomp (r == 0) saveMatDefined stb
        hankelMatPath LSingVecsPath singValsPath RSingVecsPath with
    | .error e => (tr, .error e)
    | .ok ws => (tr ++ ws, .ok stb)

/-- One delegation to the `_compute_modes` linear-combination builder of the
`ModalDecomp` base layer, with the arguments the engine passes it. -/
structure ModeCall (α : Type) where
  modeNumList : List Int
  modePath : String
  snapPaths : Option (List String)
  buildCoeffMat : List (List α)
  indexFrom : Int
deriving DecidableEq

/-- `BPOD.compute_direct_modes` (bpod.py lines 134-160): require `RSingVecs`
and `singVals`, merge the optional direct path argument, form
`mat(RSingVecs) * mat(diag(singVals ** -0.5))` and delegate to the
linear-combination builder with the direct snapshot paths.  The stored
decomposition fields are not modified. -/
def compute_direct_modes {α : Type} [NonUnitalNonAssocSemiring α] (rsqrt : α → α)
    (st : BPODState α) (modeNumList : List Int) (modePath : String)
    (indexFrom : Int) (directSnapPaths : Option (List String)) :
    List (ModeCall α) × Except BPODError (BPODState α) :=
  match st.RSingVecs with
  | none => ([], .error (.undefinedError "Must define self.RSingVecs"))
  | some rsv =>
    match st.singVals with
    | none => ([], .error (.undefinedError "Must define self.singVals"))
    | some sv =>
      let st1 := { st with directSnapPaths := mergeArg directSnapPaths st.directSnapPaths }
      let buildCoeffMat := matMul rsv.toMat (npDiag (sv.ndMap rsqrt)).toMat
      ([⟨modeNumList, modePath, st1.directSnapPaths, buildCoeffMat, indexFrom⟩],
        .ok st1)

/-- `BPOD.compute_adjoint_modes` (bpod.py lines 162-188): require `LSingVecs`
and `singVals`, merge the optional adjoint path argument, reassign
`singVals := squeeze(array(singVals))` (line 182), form
`mat(LSingVecs) * mat(diag(singVals ** -0.5))` from the squeezed values and
delegate to the linear-combination builder with the adjoint snapshot paths.
Unlike `compute_direct_modes` (whose guards raise `util.UndefinedError`),
lines 177 and 179 raise the bare name `UndefinedError`, which is not in scope
in bpod.py, so both guards actually fail with a `NameError` and the intended
message strings are never attached. -/
def compute_adjoint_modes {α : Type} [NonUnitalNonAssocSemiring α] (rsqrt : α → α)
    (st : BPODState α) (modeNumList : List Int) (modePath : String)
    (indexFrom : Int) (adjointSnapPaths : Option (List String)) :
    List (ModeCall α) × Except BPODError (BPODState α) :=
  match st.LSingVecs with
  | none => ([], .error (.nameError "UndefinedError"))
  | some lsv =>
    match st.singVals with
    | none => ([], .error (.nameError "UndefinedError"))
    | some sv =>
      let st1 := { st with adjointSnapPaths := mergeArg adjointSnapPaths st.adjointSnapPaths }
      let st2 := { st1 with singVals := some sv.squeeze }
      let buildCoeffMat := matMul lsv.toMat (npDiag (sv.squeeze.ndMap rsqrt)).toMat
      ([⟨modeNumList, modePath, st2.adjointSnapPaths, buildCoeffMat, indexFrom⟩],
        .ok st2)

/-! ## Concrete instances used to evaluate the model -/

/-- A concrete inner product on paths: encodes both path lengths, so that
distinct path pairs get distinguishable values. -/
def ipLen : String → String → ℤ :=
  fun a b => (a.length : ℤ) * 10 + (b.length : ℤ)

/-- A concrete stand-in factorization returning the input matrix three times. -/
def svdId : NDArr ℤ → NDArr ℤ × NDArr ℤ × NDArr ℤ :=
  fun H => (H, H, H)

/-- A concrete factorization whose singular values come back 2-D (a native
output shape the engine does not normalize). -/
def svdMatShaped : NDArr ℤ → NDArr ℤ × NDArr ℤ × NDArr ℤ :=
  fun _ => (.vec [1], .mat [[1, 0], [0, 2]], .vec [1])

/-- A concrete matrix loader that returns different values for the left and
right singular-vector files. -/
def lmDistinct : String → NDArr ℤ :=
  fun p => if p = "L.txt" then .vec [7] else .vec [9]

/-- A concrete matrix loader with a single constant value. -/
def lmConst : String → NDArr ℤ :=
  fun _ => .vec [5]

/-- A worker state with two direct and three adjoint snapshot paths. -/
def stSnaps : BPODState ℤ :=
  { emptyState ℤ with directSnapPaths := some ["d1", "d2"],
                      adjointSnapPaths := some ["a1", "a2", "a3"] }

/-- A worker state whose direct snapshot path list is set but empty. -/
def stEmptyDirect : BPODState ℤ :=
  { emptyState ℤ with directSnapPaths := some [],
                      adjointSnapPaths := some ["a1"] }

/-- A populated decomposition state with a 2 by 2 right factor, a 2 by 2 left
factor and two singular values. -/
def stDecomposed : BPODState ℤ :=
  { directSnapPaths := some ["d1", "d2"],
    adjointSnapPaths := some ["a1", "a2"],
    LSingVecs := some (.mat [[1, 2], [3, 4]]),
    singVals := some (.vec [4, 9]),
    RSingVecs := some (.mat [[5, 6], [7, 8]]),
    hankelMat := some (.mat [[1, 0], [0, 1]]) }

/-! ## Helper lemmas -/

/-- Reading a mapped range at an in-range index. -/
theorem getD_range_map {β : Type} (f : Nat → β) (n j : Nat) (d : β) (hj : j < n) :
    ((List.range n).map f).getD j d = f j := by
  rw [List.getD_eq_getElem?_getD, List.getElem?_map, List.getElem?_range hj]
  rfl

/-- Reading a mapped list at an in-range index, for any defaults. -/
theorem getD_map_of_lt {β γ : Type} (f : β → γ) (l : List β) (i : Nat) (d : γ)
    (e : β) (h : i < l.length) : (l.map f).getD i d = f (l.getD i e) := by
  rw [List.getD_eq_getElem?_getD, List.getElem?_map,
    List.getElem?_eq_getElem h, List.getD_eq_getElem?_getD, List.getElem?_eq_getElem h]
  rfl

theorem headD_eq_getD {β : Type} (l : List β) (d : β) : l.headD d = l.getD 0 d := by
  cases l <;> rfl

/-- The 2-D form of `npDiag` on a 1-D array has one row per entry. -/
theorem npDiag_vec_length {α : Type} [Zero α] (d : List α) :
    (npDiag (NDArr.vec d)).toMat.length = d.length := by
  simp [npDiag, NDArr.toMat]

/-- An in-range entry of the diagonal matrix built from a 1-D array. -/
theorem npDiag_vec_getD {α : Type} [Zero α] (d : List α) (k j : Nat)
    (hk : k < d.length) (hj : j < d.length) :
    (((npDiag (NDArr.vec d)).toMat.getD k []).getD j 0) =
      if k = j then d.getD k 0 else 0 := by
  simp only [npDiag, NDArr.toMat]
  rw [getD_range_map _ _ _ _ hk, getD_range_map _ _ _ _ hj]

/-- An in-range entry of a matrix product, as the defining contraction. -/
theorem matMul_getD {α : Type} [NonUnitalNonAssocSemiring α] (A B : List (List α))
    (i j : Nat) (hi : i < A.length) (hj : j < (B.headD []).length) :
    ((matMul A B).getD i []).getD j 0 =
      Finset.sum (Finset.range B.length) fun k =>
        (A.getD i []).getD k 0 * (B.getD k []).getD j 0 := by
  unfold matMul
  rw [getD_map_of_lt _ _ _ _ [] hi, getD_range_map _ _ _ _ hj]

/-- Multiplying by the diagonal matrix of a 1-D array scales column `j` by the
`j`-th entry: the contraction collapses to a single term. -/
theorem matMul_npDiag_getD {α : Type} [NonUnitalNonAssocSemiring α]
    (A : List (List α)) (d : List α) (i j : Nat) (hi : i < A.length)
    (hj : j < d.length) :
    ((matMul A (npDiag (NDArr.vec d)).toMat).getD i []).getD j 0 =
      (A.getD i []).getD j 0 * d.getD j 0 := by
  have hlen : (npDiag (NDArr.vec d)).toMat.length = d.length := npDiag_vec_length d
  have hhead : ((npDiag (NDArr.vec d)).toMat.headD []).length = d.length := by
    rw [headD_eq_getD]
    simp only [npDiag, NDArr.toMat]
    rw [getD_range_map _ _ _ _ (Nat.lt_of_le_of_lt (Nat.zero_le j) hj)]
    simp
  rw [matMul_getD _ _ _ _ hi (by rw [hhead]; exact hj), hlen]
  have hterm : ∀ k ∈ Finset.range d.length,
      (A.getD i []).getD k 0 * (((npDiag (NDArr.vec d)).toMat.getD k []).getD j 0) =
        if k = j then (A.getD i []).getD k 0 * d.getD k 0 else 0 := by
    intro k hk
    rw [npDiag_vec_getD d k j (Finset.mem_range.mp hk) hj]
    by_cases h : k = j <;> simp [h]
  rw [Finset.sum_congr rfl hterm,
    Finset.sum_ite_eq' (Finset.range d.length) j fun k => (A.getD i []).getD k 0 * d.getD k 0]
  simp [hj]

/-- Shape of the spec-modelled inner-product matrix: one row per row path. -/
theorem cipm_length {α : Type} (ip : String → String → α) (rps cps : List String) :
    (compute_inner_product_matrix ip rps cps).toMat.length = rps.length := by
  simp [compute_inner_product_matrix, NDArr.toMat]

/-- Every row of the spec-modelled inner-product matrix has one entry per
column path. -/
theorem cipm_row_length {α : Type} (ip : String → String → α) (rps cps : List String) :
    ∀ row ∈ (compute_inner_product_matrix ip rps cps).toMat, row.length = cps.length := by
  intro row hrow
  simp only [compute_inner_product_matrix, NDArr.toMat, List.mem_map] at hrow
  obtain ⟨rp, _, heq⟩ := hrow
  rw [← heq]
  simp

/-- In-range entry of the spec-modelled inner-product matrix. -/
theorem cipm_getD {α : Type} [Zero α] (ip : String → String → α) (rps cps : List String)
    (i j : Nat) (hi : i < rps.length) (hj : j < cps.length) :
    ((compute_inner_product_matrix ip rps cps).toMat.getD i []).getD j 0 =
      ip (rps.getD i "") (cps.getD j "") := by
  simp only [compute_inner_product_matrix, NDArr.toMat]
  rw [getD_map_of_lt _ _ _ _ "" hi, getD_map_of_lt _ _ _ _ "" (by simpa using hj)]

/-- `squeeze` flattens exactly the vec-like arrays. -/
theorem squeeze_isVec_of_vecLike {α : Type} (a : NDArr α) (h : a.vecLike = true) :
    a.squeeze.isVec = true := by
  cases a with
  | vec xs => rfl
  | mat xss =>
    simp only [NDArr.vecLike, Bool.or_eq_true, decide_eq_true_eq] at h
    simp only [NDArr.squeeze]
    rcases h with h | h
    · simp [h, NDArr.isVec]
    · split
      · rfl
      · simp [h, NDArr.isVec]

/-- With both merged path lists set, the local phase of `compute_decomp`
calls the inner-product builder with the adjoint paths as rows and the direct
paths as columns, succeeds, stores the result as the Hankel matrix, and on the
rank-zero worker stores the factorization output of that matrix verbatim. -/
theorem compute_decomp_local_ok {α : Type} (isRoot : Bool)
    (ip : String → String → α) (svdFun : NDArr α → NDArr α × NDArr α × NDArr α)
    (st : BPODState α) (dArg aArg : Option (List String)) (dps aps : List String)
    (hd : mergeArg dArg st.directSnapPaths = some dps)
    (ha : mergeArg aArg st.adjointSnapPaths = some aps) :
    (compute_decomp_local isRoot ip svdFun st dArg aArg).1.head? =
      some (Event.ipmCall aps dps) ∧
    ∃ st2, (compute_decomp_local isRoot ip svdFun st dArg aArg).2 = .ok st2 ∧
      st2.hankelMat = some (compute_inner_product_matrix ip aps dps) ∧
      (isRoot = true → st2.singVals =
        some (svdFun (compute_inner_product_matrix ip aps dps)).2.1) := by
  unfold compute_decomp_local
  cases isRoot <;> simp [hd, ha]

/-- With a merged path list unset, the local phase of `compute_decomp` raises
and makes no external call at all. -/
theorem compute_decomp_local_err {α : Type} (isRoot : Bool)
    (ip : String → String → α) (svdFun : NDArr α → NDArr α × NDArr α × NDArr α)
    (st : BPODState α) (dArg aArg : Option (List String))
    (h : mergeArg dArg st.directSnapPaths = none ∨
      mergeArg aArg st.adjointSnapPaths = none) :
    ∃ msg, compute_decomp_local isRoot ip svdFun st dArg aArg =
      ([], .error (.undefinedError msg)) := by
  unfold compute_decomp_local
  rcases h with h | h
  · exact ⟨"directSnapPaths is not given", by simp [h]⟩
  · cases hd : mergeArg dArg st.directSnapPaths with
    | none => exact ⟨"directSnapPaths is not given", by simp [hd]⟩
    | some dps => exact ⟨"adjointSnapPaths is not given", by simp [hd, h]⟩

/-- With a configured save mechanism, `save_decomp` never raises. -/
theorem save_decomp_some_ok {α : Type} (irz : Bool) (st : BPODState α)
    (hP LP sP RP : Option String) :
    ∃ ws, save_decomp irz true st hP LP sP RP = .ok ws := by
  unfold save_decomp
  cases irz <;> simp

theorem head?_append_of_head? {β : Type} (l1 l2 : List β) (x : β)
    (h : l1.head? = some x) : (l1 ++ l2).head? = some x := by
  cases l1 <;> simp_all

/-- With both merged path lists set on worker `r` and a configured save
mechanism, `compute_decomp` as observed by worker `r` first calls the
inner-product builder with the adjoint paths as rows and the direct paths as
columns, succeeds, and stores the builder output as worker `r`'s Hankel
matrix, for every cluster size. -/
theorem compute_decomp_ok {α : Type} (size : Nat) (ip : String → String → α)
    (svdFun : NDArr α → NDArr α × NDArr α × NDArr α) (sts : Nat → BPODState α)
    (r : Nat) (dArg aArg : Option (List String)) (dps aps : List String)
    (hP LP sP RP : Option String)
    (hd : mergeArg dArg (sts r).directSnapPaths = some dps)
    (ha : mergeArg aArg (sts r).adjointSnapPaths = some aps) :
    (compute_decomp size ip svdFun true sts dArg aArg hP LP sP RP r).1.head? =
      some (Event.ipmCall aps dps) ∧
    ∃ stb, (compute_decomp size ip svdFun true sts dArg aArg hP LP sP RP r).2 = .ok stb ∧
      stb.hankelMat = some (compute_inner_product_matrix ip aps dps) := by
  obtain ⟨h1, st2, h2, h3, h4⟩ :=
    compute_decomp_local_ok (r == 0) ip svdFun (sts r) dArg aArg dps aps hd ha
  unfold compute_decomp
  rcases hX : compute_decomp_local (r == 0) ip svdFun (sts r) dArg aArg with ⟨tr, res⟩
  rw [hX] at h1 h2
  dsimp only at h1 h2
  subst h2
  by_cases hsz : 1 < size
  · rcases hR : compute_decomp_local true ip svdFun (sts 0) dArg aArg with ⟨tr0, res0⟩
    cases res0 with
    | error e =>
      obtain ⟨ws, hws⟩ := save_decomp_some_ok (r == 0) st2 hP LP sP RP
      simp only [hsz, if_true, hR, hws]
      exact ⟨head?_append_of_head? _ _ _ h1, st2, rfl, h3⟩
    | ok rootSt =>
      obtain ⟨ws, hws⟩ := save_decomp_some_ok (r == 0)
        { st2 with LSingVecs := rootSt.LSingVecs, singVals := rootSt.singVals,
                   RSingVecs := rootSt.RSingVecs } hP LP sP RP
      simp only [hsz, if_true, hR, hws]
      exact ⟨head?_append_of_head? _ _ _ h1, _, rfl, h3⟩
  · obtain ⟨ws, hws⟩ := save_decomp_some_ok (r == 0) st2 hP LP sP RP
    simp only [hsz, if_false, hws]
    exact ⟨head?_append_of_head? _ _ _ h1, st2, rfl, h3⟩

/-! ## Claim theorems -/

/-- C1: `compute_decomp` builds the Hankel matrix by invoking the inner-product
matrix builder with the adjoint snapshot paths as rows and the direct snapshot
paths as columns; for non-empty lists of sizes `m` (direct) and `n` (adjoint)
the stored Hankel matrix has `n` rows, each of length `m`, and entry `(i, j)`
is the inner product of adjoint snapshot `i` with direct snapshot `j`. -/
theorem c1_hankel_shape_and_entries {α : Type} [Zero α] (size : Nat)
    (ip : String → String → α) (svdFun : NDArr α → NDArr α × NDArr α × NDArr α)
    (sts : Nat → BPODState α) (r : Nat) (dps aps : List String)
    (hP LP sP RP : Option String)
    (hd : (sts r).directSnapPaths = some dps)
    (ha : (sts r).adjointSnapPaths = some aps)
    (hdne : dps ≠ []) (hane : aps ≠ []) :
    (compute_decomp size ip svdFun true sts none none hP LP sP RP r).1.head? =
      some (Event.ipmCall aps dps) ∧
    ∃ stb, (compute_decomp size ip svdFun true sts none none hP LP sP RP r).2 = .ok stb ∧
      stb.hankelMat = some (compute_inner_product_matrix ip aps dps) ∧
      (compute_inner_product_matrix ip aps dps).toMat.length = aps.length ∧
      (∀ row ∈ (compute_inner_product_matrix ip aps dps).toMat, row.length = dps.length) ∧
      (∀ i j : Nat, i < aps.length → j < dps.length →
        ((compute_inner_product_matrix ip aps dps).toMat.getD i []).getD j 0 =
          ip (aps.getD i "") (dps.getD j "")) := by
  obtain ⟨h1, stb, h2, h3⟩ := compute_decomp_ok size ip svdFun sts r none none dps aps
    hP LP sP RP (by simp [mergeArg, hd]) (by simp [mergeArg, ha])
  exact ⟨h1, stb, h2, h3, cipm_length ip aps dps, cipm_row_length ip aps dps,
    fun i j hi hj => cipm_getD ip aps dps i j hi hj⟩

/-- Witness for C1 at a concrete serial run with two direct and three adjoint
snapshot paths. -/
theorem c1_hankel_shape_and_entries_witness :
    (stSnaps.directSnapPaths = some ["d1", "d2"] ∧
      stSnaps.adjointSnapPaths = some ["a1", "a2", "a3"] ∧
      (["d1", "d2"] : List String) ≠ [] ∧ (["a1", "a2", "a3"] : List String) ≠ []) ∧
    ((compute_decomp 1 ipLen svdId true (fun _ => stSnaps) none none
        none none none none 0).1.head? =
      some (Event.ipmCall ["a1", "a2", "a3"] ["d1", "d2"]) ∧
    ∃ stb, (compute_decomp 1 ipLen svdId true (fun _ => stSnaps) none none
        none none none none 0).2 = .ok stb ∧
      stb.hankelMat = some (compute_inner_product_matrix ipLen ["a1", "a2", "a3"] ["d1", "d2"]) ∧
      (compute_inner_product_matrix ipLen ["a1", "a2", "a3"] ["d1", "d2"]).toMat.length =
        (["a1", "a2", "a3"] : List String).length ∧
      (∀ row ∈ (compute_inner_product_matrix ipLen ["a1", "a2", "a3"] ["d1", "d2"]).toMat,
        row.length = (["d1", "d2"] : List String).length) ∧
      (∀ i j : Nat, i < (["a1", "a2", "a3"] : List String).length →
        j < (["d1", "d2"] : List String).length →
        ((compute_inner_product_matrix ipLen ["a1", "a2", "a3"] ["d1", "d2"]).toMat.getD i []).getD j 0 =
          ipLen ((["a1", "a2", "a3"] : List String).getD i "") ((["d1", "d2"] : List String).getD j ""))) :=
  ⟨⟨rfl, rfl, by decide, by decide⟩,
    c1_hankel_shape_and_entries 1 ipLen svdId (fun _ => stSnaps) 0
      ["d1", "d2"] ["a1", "a2", "a3"] none none none none rfl rfl
      (by decide) (by decide)⟩

/-- C2: a failing parallel run of `load_decomp` on two workers.  The loader
returns `[7]` for the left singular-vector file and `[9]` for the right
singular-vector file, yet after the call both workers (the coordinator
included) store `[7]` as `RSingVecs`: bpod.py line 72 broadcasts
`self.LSingVecs` into `self.RSingVecs`, so the loaded right factor is
discarded and `R` is never broadcast. -/
theorem c2_load_bcast_failing_run :
    Except.map (fun f => ((f 0).RSingVecs, (f 1).RSingVecs))
      (load_decomp 2 (some lmDistinct) (fun _ => emptyState ℤ)
        "hankelMat.txt" "L.txt" "S.txt" "R.txt") =
      .ok (some (NDArr.vec [7]), some (NDArr.vec [7])) ∧
    lmDistinct "L.txt" = NDArr.vec [7] ∧ lmDistinct "R.txt" = NDArr.vec [9] :=
  ⟨rfl, rfl, rfl⟩

/-- C5 counterexample: with the direct snapshot path list set but empty (and
the adjoint list non-empty), `compute_decomp` does not raise: validation only
rejects `None`, so the run completes normally. -/
theorem c5_counterexample :
    (compute_decomp 1 ipLen svdId true (fun _ => stEmptyDirect) none none
      none none none none 0).2 =
      .ok { directSnapPaths := some [], adjointSnapPaths := some ["a1"],
            LSingVecs := some (NDArr.mat [[]]), singVals := some (NDArr.mat [[]]),
            RSingVecs := some (NDArr.mat [[]]), hankelMat := some (NDArr.mat [[]]) } :=
  rfl

/-- C5 (amended): if either merged snapshot path list is unset (`None`) at
call time, `compute_decomp` raises `UndefinedError` having made no external
call — in particular before the inner-product matrix builder is invoked;
empty (but set) path lists are not rejected. -/
theorem c5_amended_eager_validation {α : Type} (size : Nat)
    (ip : String → String → α) (svdFun : NDArr α → NDArr α × NDArr α × NDArr α)
    (smd : Bool) (sts : Nat → BPODState α) (r : Nat)
    (dArg aArg : Option (List String)) (hP LP sP RP : Option String)
    (h : mergeArg dArg (sts r).directSnapPaths = none ∨
      mergeArg aArg (sts r).adjointSnapPaths = none) :
    ∃ msg, compute_decomp size ip svdFun smd sts dArg aArg hP LP sP RP r =
      ([], .error (.undefinedError msg)) := by
  obtain ⟨msg, hmsg⟩ := compute_decomp_local_err (r == 0) ip svdFun (sts r) dArg aArg h
  refine ⟨msg, ?_⟩
  unfold compute_decomp
  rw [hmsg]

/-- Witness for C5 (amended): a fresh engine with no snapshot paths set. -/
theorem c5_amended_eager_validation_witness :
    (mergeArg none (emptyState ℤ).directSnapPaths = none) ∧
    ∃ msg, compute_decomp 1 ipLen svdId true (fun _ => emptyState ℤ) none none
      none none none none 0 = ([], .error (.undefinedError msg)) :=
  ⟨rfl, c5_amended_eager_validation 1 ipLen svdId true (fun _ => emptyState ℤ) 0
    none none none none none none (Or.inl rfl)⟩

/-- C6 counterexample: a serial `load_decomp` call given a Hankel-matrix path,
with a loader that returns a value for every path, still leaves the Hankel
matrix field unset: the path argument is ignored and the artifact is never
read. -/
theorem c6_counterexample :
    Except.map (fun f => (f 0).hankelMat)
      (load_decomp 1 (some lmConst) (fun _ => emptyState ℤ)
        "hankelMat.txt" "LSingVecs.txt" "singVals.txt" "RSingVecs.txt") =
      .ok none ∧
    lmConst "hankelMat.txt" = NDArr.vec [5] :=
  ⟨rfl, rfl⟩

/-- C6 (amended): in a serial run the coordinating worker loads the left
singular vectors, the squeezed singular values and the right singular vectors
from their three given paths unconditionally, while the Hankel-matrix path is
ignored and that field keeps its previous value (it is never loaded). -/
theorem c6_amended_load_behaviour {α : Type} (lm : String → NDArr α)
    (sts : Nat → BPODState α) (hP LP sP RP : String) :
    Except.map (fun f => ((f 0).hankelMat, (f 0).LSingVecs, (f 0).singVals, (f 0).RSingVecs))
      (load_decomp 1 (some lm) sts hP LP sP RP) =
      .ok ((sts 0).hankelMat, some (lm LP), some (lm sP).squeeze, some (lm RP)) := by
  simp [load_decomp, load_decomp_local, Except.map]

/-- C7: with a configured save mechanism, `save_decomp` writes nothing on a
non-coordinating worker; on the coordinating worker each of the four
artifacts is written with its stored value at its given path whenever that
path is provided, and the total number of writes equals the number of
provided paths, so any partial subset of the four may be saved. -/
theorem c7_save_partial_subsets {α : Type} (st : BPODState α)
    (hP LP sP RP : Option String) :
    save_decomp false true st hP LP sP RP = .ok [] ∧
    ∀ ws, save_decomp true true st hP LP sP RP = .ok ws →
      ((∀ p, hP = some p → Event.matWrite st.hankelMat p ∈ ws) ∧
       (∀ p, LP = some p → Event.matWrite st.LSingVecs p ∈ ws) ∧
       (∀ p, RP = some p → Event.matWrite st.RSingVecs p ∈ ws) ∧
       (∀ p, sP = some p → Event.matWrite st.singVals p ∈ ws) ∧
       ws.length = (if hP.isSome then 1 else 0) + (if LP.isSome then 1 else 0) +
         (if RP.isSome then 1 else 0) + (if sP.isSome then 1 else 0)) := by
  refine ⟨rfl, ?_⟩
  intro ws hws
  rw [show save_decomp true true st hP LP sP RP =
    .ok (optWrite st.hankelMat hP ++ optWrite st.LSingVecs LP ++
      optWrite st.RSingVecs RP ++ optWrite st.singVals sP) from rfl] at hws
  injection hws with hws
  subst hws
  refine ⟨?_, ?_, ?_, ?_, ?_⟩
  · intro p hp; subst hp; simp [optWrite]
  · intro p hp; subst hp; simp [optWrite]
  · intro p hp; subst hp; simp [optWrite]
  · intro p hp; subst hp; simp [optWrite]
  · rcases hP with _ | p <;> rcases LP with _ | q <;> rcases sP with _ | u <;>
      rcases RP with _ | v <;> simp [optWrite]

/-- Witness for C7: saving only the Hankel matrix and the singular values. -/
theorem c7_save_partial_subsets_witness :
    Event.matWrite (stDecomposed.hankelMat) "H.txt" ∈
      ([Event.matWrite (some (NDArr.mat [[1, 0], [0, 1]])) "H.txt",
        Event.matWrite (some (NDArr.vec [4, 9])) "S.txt"] : List (Event ℤ)) :=
  (((c7_save_partial_subsets stDecomposed (some "H.txt") none (some "S.txt") none).2
    [Event.matWrite (some (NDArr.mat [[1, 0], [0, 1]])) "H.txt",
     Event.matWrite (some (NDArr.vec [4, 9])) "S.txt"] rfl).1 "H.txt" rfl)

/-- C9 counterexample: with no save mechanism configured, `save_decomp` on a
non-coordinating worker does not fail: it returns normally with no writes,
so the failure is not raised on every worker. -/
theorem c9_counterexample :
    save_decomp false false (emptyState ℤ) (some "H.txt") (some "L.txt")
      (some "S.txt") (some "R.txt") = .ok [] :=
  rfl

/-- C9 (amended): with no save mechanism configured, `save_decomp` fails with
`UndefinedError` on the coordinating worker before any artifact is written,
while every non-coordinating worker returns normally having written nothing. -/
theorem c9_amended_save_guard {α : Type} (st : BPODState α)
    (hP LP sP RP : Option String) :
    save_decomp true false st hP LP sP RP =
      .error (.undefinedError "save_mat is undefined, cant save") ∧
    save_decomp false false st hP LP sP RP = .ok [] :=
  ⟨rfl, rfl⟩

/-- C3: with a populated decomposition (`R` a matrix `rss`, `L` a matrix
`lss`, singular values a flat `s`), `compute_direct_modes` delegates one call
to the linear-combination builder carrying the direct snapshot path list and
the coefficient matrix `R * diag(rsqrt Σ)`, and `compute_adjoint_modes`
delegates one call carrying the adjoint path list and `L * diag(rsqrt Σ)`;
entrywise both coefficient matrices scale column `j` of the singular-vector
matrix by `rsqrt` of singular value `j`. -/
theorem c3_mode_coefficient_matrices {α : Type} [NonUnitalNonAssocSemiring α]
    (rsqrt : α → α) (st : BPODState α) (rss lss : List (List α)) (s : List α)
    (m : List Int) (mp : String) (io : Int)
    (hR : st.RSingVecs = some (.mat rss)) (hL : st.LSingVecs = some (.mat lss))
    (hs : st.singVals = some (.vec s)) :
    compute_direct_modes rsqrt st m mp io none =
      ([⟨m, mp, st.directSnapPaths,
        matMul rss (npDiag (NDArr.vec (s.map rsqrt))).toMat, io⟩], .ok st) ∧
    compute_adjoint_modes rsqrt st m mp io none =
      ([⟨m, mp, st.adjointSnapPaths,
        matMul lss (npDiag (NDArr.vec (s.map rsqrt))).toMat, io⟩],
        .ok { st with singVals := some (NDArr.vec s) }) ∧
    (∀ i j : Nat, i < rss.length → j < s.length →
      ((matMul rss (npDiag (NDArr.vec (s.map rsqrt))).toMat).getD i []).getD j 0 =
        (rss.getD i []).getD j 0 * rsqrt (s.getD j 0)) ∧
    (∀ i j : Nat, i < lss.length → j < s.length →
      ((matMul lss (npDiag (NDArr.vec (s.map rsqrt))).toMat).getD i []).getD j 0 =
        (lss.getD i []).getD j 0 * rsqrt (s.getD j 0)) := by
  obtain ⟨d, a, lv, sv, rv, hk⟩ := st
  simp only at hR hL hs
  subst hR
  subst hL
  subst hs
  refine ⟨?_, ?_, ?_, ?_⟩
  · simp [compute_direct_modes, mergeArg, NDArr.toMat, NDArr.ndMap]
  · simp [compute_adjoint_modes, mergeArg, NDArr.toMat, NDArr.ndMap, NDArr.squeeze]
  · intro i j hi hj
    rw [matMul_npDiag_getD rss (s.map rsqrt) i j hi (by simpa using hj),
      getD_map_of_lt rsqrt s j 0 0 hj]
  · intro i j hi hj
    rw [matMul_npDiag_getD lss (s.map rsqrt) i j hi (by simpa using hj),
      getD_map_of_lt rsqrt s j 0 0 hj]

/-- Witness for C3 at a concrete populated decomposition over the integers. -/
theorem c3_mode_coefficient_matrices_witness :
    (stDecomposed.RSingVecs = some (.mat [[5, 6], [7, 8]]) ∧
      stDecomposed.LSingVecs = some (.mat [[1, 2], [3, 4]]) ∧
      stDecomposed.singVals = some (.vec [4, 9])) ∧
    (compute_direct_modes (fun x : ℤ => x) stDecomposed [1, 2] "mode_d.txt" 1 none =
      ([⟨[1, 2], "mode_d.txt", stDecomposed.directSnapPaths,
        matMul [[5, 6], [7, 8]] (npDiag (NDArr.vec ([4, 9].map (fun x : ℤ => x)))).toMat, 1⟩],
        .ok stDecomposed) ∧
    compute_adjoint_modes (fun x : ℤ => x) stDecomposed [1, 2] "mode_d.txt" 1 none =
      ([⟨[1, 2], "mode_d.txt", stDecomposed.adjointSnapPaths,
        matMul [[1, 2], [3, 4]] (npDiag (NDArr.vec ([4, 9].map (fun x : ℤ => x)))).toMat, 1⟩],
        .ok { stDecomposed with singVals := some (NDArr.vec [4, 9]) }) ∧
    (∀ i j : Nat, i < ([[5, 6], [7, 8]] : List (List ℤ)).length →
      j < ([4, 9] : List ℤ).length →
      ((matMul [[5, 6], [7, 8]] (npDiag (NDArr.vec ([4, 9].map (fun x : ℤ => x)))).toMat).getD i []).getD j 0 =
        (([[5, 6], [7, 8]] : List (List ℤ)).getD i []).getD j 0 * (([4, 9] : List ℤ).getD j 0)) ∧
    (∀ i j : Nat, i < ([[1, 2], [3, 4]] : List (List ℤ)).length →
      j < ([4, 9] : List ℤ).length →
      ((matMul [[1, 2], [3, 4]] (npDiag (NDArr.vec ([4, 9].map (fun x : ℤ => x)))).toMat).getD i []).getD j 0 =
        (([[1, 2], [3, 4]] : List (List ℤ)).getD i []).getD j 0 * (([4, 9] : List ℤ).getD j 0))) :=
  ⟨⟨rfl, rfl, rfl⟩,
    c3_mode_coefficient_matrices (fun x : ℤ => x) stDecomposed
      [[5, 6], [7, 8]] [[1, 2], [3, 4]] [4, 9] [1, 2] "mode_d.txt" 1 rfl rfl rfl⟩

/-- C4: evaluation at the failing input.  On a fresh engine (coefficient
source unset), `compute_direct_modes` fails with the typed
`util.UndefinedError` — the spec's `StateError` — as the claim says, but
`compute_adjoint_modes` fails with a `NameError`: bpod.py lines 177 and 179
raise the bare, out-of-scope name `UndefinedError`, so the adjoint guard does
not raise the typed state error the claim asserts.  In both cases the failure
happens with no call delegated to the linear-combination builder. -/
theorem c4_adjoint_guard_name_error :
    compute_direct_modes (fun x : ℤ => x) (emptyState ℤ) [1] "mode.txt" 1 none =
      ([], .error (.undefinedError "Must define self.RSingVecs")) ∧
    compute_adjoint_modes (fun x : ℤ => x) (emptyState ℤ) [1] "mode.txt" 1 none =
      ([], .error (.nameError "UndefinedError")) :=
  ⟨rfl, rfl⟩

/-- C8 counterexample: a factorization routine whose singular-value output is
natively a 2 by 2 matrix leaves `singVals` stored as that matrix after
`compute_decomp`: the engine applies no flattening to the factorization
output, so Σ is not flat regardless of the routine's native shape. -/
theorem c8_counterexample :
    Except.map (fun st => st.singVals)
      (compute_decomp 1 ipLen svdMatShaped true (fun _ => stSnaps) none none
        none none none none 0).2 = .ok (some (NDArr.mat [[1, 0], [0, 2]])) ∧
    Except.map (fun st => Option.map NDArr.isVec st.singVals)
      (compute_decomp 1 ipLen svdMatShaped true (fun _ => stSnaps) none none
        none none none none 0).2 = .ok (some false) :=
  ⟨rfl, rfl⟩

/-- C8 (amended): after `load_decomp` every worker stores the squeeze of the
loaded singular-value matrix — flat whenever the persisted form is 1-D or a
single row or column — while after a serial `compute_decomp` the stored
singular values are exactly the factorization routine's native output, with
no normalization applied by the engine. -/
theorem c8_amended_sigma_shape {α : Type} (lm : String → NDArr α)
    (ip : String → String → α) (svdFun : NDArr α → NDArr α × NDArr α × NDArr α)
    (sts : Nat → BPODState α) (size r : Nat) (hP LP sP RP : String)
    (hP2 LP2 sP2 RP2 : Option String) (dps aps : List String)
    (hr : r < size)
    (hd : (sts 0).directSnapPaths = some dps)
    (ha : (sts 0).adjointSnapPaths = some aps) :
    (Except.map (fun f => (f r).singVals) (load_decomp size (some lm) sts hP LP sP RP) =
      .ok (some (lm sP).squeeze)) ∧
    ((lm sP).vecLike = true → ((lm sP).squeeze).isVec = true) ∧
    (∀ stb, (compute_decomp 1 ip svdFun true sts none none hP2 LP2 sP2 RP2 0).2 = .ok stb →
      stb.singVals = some (svdFun (compute_inner_product_matrix ip aps dps)).2.1) := by
  refine ⟨?_, squeeze_isVec_of_vecLike _, ?_⟩
  · by_cases hsz : 1 < size
    · simp [load_decomp, load_decomp_local, Except.map, hsz]
    · have hr0 : r = 0 := by omega
      subst hr0
      simp [load_decomp, load_decomp_local, Except.map, hsz]
  · have hser : ∃ st2, (compute_decomp 1 ip svdFun true sts none none
        hP2 LP2 sP2 RP2 0).2 = .ok st2 ∧
        st2.singVals = some (svdFun (compute_inner_product_matrix ip aps dps)).2.1 := by
      obtain ⟨h1, st2, h2, h3, h4⟩ := compute_decomp_local_ok (0 == 0) ip svdFun (sts 0)
        none none dps aps (by simp [mergeArg, hd]) (by simp [mergeArg, ha])
      unfold compute_decomp
      rcases hX : compute_decomp_local (0 == 0) ip svdFun (sts 0) none none with ⟨tr, res⟩
      rw [hX] at h2
      dsimp only at h2
      subst h2
      obtain ⟨ws, hws⟩ := save_decomp_some_ok (0 == 0) st2 hP2 LP2 sP2 RP2
      simp only [show ¬(1 < 1) from by omega, if_false, hws]
      exact ⟨st2, rfl, h4 rfl⟩
    intro stb hstb
    obtain ⟨st2, h2, h4⟩ := hser
    rw [hstb] at h2
    injection h2 with h2
    rw [h2]
    exact h4

/-- Witness for C8 (amended) at a concrete serial configuration. -/
theorem c8_amended_sigma_shape_witness :
    ((0 : Nat) < 1 ∧ stSnaps.directSnapPaths = some ["d1", "d2"] ∧
      stSnaps.adjointSnapPaths = some ["a1", "a2", "a3"]) ∧
    ((Except.map (fun f => (f 0).singVals)
        (load_decomp 1 (some lmConst) (fun _ => stSnaps)
          "hankelMat.txt" "L.txt" "S.txt" "R.txt") =
      .ok (some (lmConst "S.txt").squeeze)) ∧
    ((lmConst "S.txt").vecLike = true → ((lmConst "S.txt").squeeze).isVec = true) ∧
    (∀ stb, (compute_decomp 1 ipLen svdMatShaped true (fun _ => stSnaps) none none
        none none none none 0).2 = .ok stb →
      stb.singVals = some (svdMatShaped (compute_inner_product_matrix ipLen
        ["a1", "a2", "a3"] ["d1", "d2"])).2.1)) :=
  ⟨⟨by decide, rfl, rfl⟩,
    c8_amended_sigma_shape lmConst ipLen svdMatShaped (fun _ => stSnaps) 1 0
      "hankelMat.txt" "L.txt" "S.txt" "R.txt" none none none none
      ["d1", "d2"] ["a1", "a2", "a3"] (by decide) rfl rfl⟩

/-- C10: frame effects of mode reconstruction on a populated state:
`compute_adjoint_modes` reassigns the stored singular values to their squeezed
form and leaves the Hankel matrix and both singular-vector matrices unchanged,
while `compute_direct_modes` leaves all four decomposition fields unchanged. -/
theorem c10_mode_frame_effects {α : Type} [NonUnitalNonAssocSemiring α]
    (rsqrt : α → α) (st : BPODState α) (l s rv : NDArr α) (m : List Int)
    (mp : String) (io : Int) (dArg aArg : Option (List String))
    (hL : st.LSingVecs = some l) (hs : st.singVals = some s)
    (hR : st.RSingVecs = some rv) :
    (∃ c st2, compute_adjoint_modes rsqrt st m mp io aArg = ([c], .ok st2) ∧
      st2.singVals = some s.squeeze ∧ st2.hankelMat = st.hankelMat ∧
      st2.LSingVecs = st.LSingVecs ∧ st2.RSingVecs = st.RSingVecs) ∧
    (∃ c st1, compute_direct_modes rsqrt st m mp io dArg = ([c], .ok st1) ∧
      st1.hankelMat = st.hankelMat ∧ st1.LSingVecs = st.LSingVecs ∧
      st1.singVals = st.singVals ∧ st1.RSingVecs = st.RSingVecs) := by
  constructor
  · refine ⟨⟨m, mp, mergeArg aArg st.adjointSnapPaths,
      matMul l.toMat (npDiag (s.squeeze.ndMap rsqrt)).toMat, io⟩,
      { st with adjointSnapPaths := mergeArg aArg st.adjointSnapPaths,
                singVals := some s.squeeze }, ?_, rfl, rfl, ?_, ?_⟩
    · simp [compute_adjoint_modes, hL, hs]
    · simp [hL]
    · simp [hR]
  · refine ⟨⟨m, mp, mergeArg dArg st.directSnapPaths,
      matMul rv.toMat (npDiag (s.ndMap rsqrt)).toMat, io⟩,
      { st with directSnapPaths := mergeArg dArg st.directSnapPaths },
      ?_, rfl, rfl, rfl, rfl⟩
    simp [compute_direct_modes, hR, hs]

/-- Witness for C10 at a concrete populated decomposition. -/
theorem c10_mode_frame_effects_witness :
    (stDecomposed.LSingVecs = some (.mat [[1, 2], [3, 4]]) ∧
      stDecomposed.singVals = some (.vec [4, 9]) ∧
      stDecomposed.RSingVecs = some (.mat [[5, 6], [7, 8]])) ∧
    ((∃ c st2, compute_adjoint_modes (fun x : ℤ => x) stDecomposed [1] "mode.txt" 1 none =
        ([c], .ok st2) ∧
      st2.singVals = some (NDArr.vec [4, 9]).squeeze ∧
      st2.hankelMat = stDecomposed.hankelMat ∧
      st2.LSingVecs = stDecomposed.LSingVecs ∧ st2.RSingVecs = stDecomposed.RSingVecs) ∧
    (∃ c st1, compute_direct_modes (fun x : ℤ => x) stDecomposed [1] "mode.txt" 1 none =
        ([c], .ok st1) ∧
      st1.hankelMat = stDecomposed.hankelMat ∧ st1.LSingVecs = stDecomposed.LSingVecs ∧
      st1.singVals = stDecomposed.singVals ∧ st1.RSingVecs = stDecomposed.RSingVecs)) :=
  ⟨⟨rfl, rfl, rfl⟩,
    c10_mode_frame_effects (fun x : ℤ => x) stDecomposed
      (.mat [[1, 2], [3, 4]]) (.vec [4, 9]) (.mat [[5, 6], [7, 8]])
      [1] "mode.txt" 1 none none rfl rfl rfl⟩
